import Mathlib

/-!
Shallow embedding of the reconciliation-and-persistence core of the
ebay-catalog auction tracker (src/ebay_auction_tracker/db.py and
src/ebay_auction_tracker/main.py).

Modelling conventions:
* PostgreSQL tables become Lean lists of row structures.  The SERIAL
  surrogate keys of the sellers and auctions tables are modelled with
  explicit counters in the `DB` state, because other tables reference them.
  The surrogate ids of item_specifics and bids rows are never referenced by
  the code, so those rows are kept without them; list multiplicity models
  row multiplicity.
* The created_at / updated_at columns (filled from NOW()) are omitted:
  they would need a wall clock and no claim is about them.
* NUMERIC(10,2) money columns and the FLOAT rating column only ever store
  and compare values (the code never computes with them), so both are
  modelled as ℚ; TIMESTAMP values are modelled as Int.
* A Python dict access d[k] raises KeyError when the key is absent, so
  observed records carry `Option` fields for required keys and the
  operations run in `Except String`; d.get(k) and d.get(k, default) become
  plain `Option` reads.
* The single psycopg2 connection with autocommit off is a pair of database
  states: `committed` and `pending`.  commit copies pending over committed;
  rollback restores pending from committed.
* The bids table (db.py lines 77-85) declares no unique constraint besides
  its SERIAL primary key, so the ON CONFLICT DO NOTHING clauses on bid
  inserts (db.py lines 252-268 and 329-344) can never be triggered: the
  inserts are unconditional appends, and they are embedded as such.

The file first gives the embedded data model and operations, then the
structural lemmas about them, then one theorem (with witness or
counterexample where applicable) per examined property.
-/

/-- A row of the sellers table (db.py lines 38-46), without the timestamp
columns. -/
structure SellerRow where
  id : Nat
  ebay_user_id : String
  rating : Option ℚ
  feedback_score : Option Int
deriving DecidableEq, Repr

/-- A row of the auctions table (db.py lines 48-66), without the timestamp
columns. -/
structure AuctionRow where
  id : Nat
  item_id : String
  title : String
  url : String
  seller_id : Nat
  search_pattern : String
  description : Option String
  condition : Option String
  current_price : Option ℚ
  buy_it_now_price : Option ℚ
  shipping_cost : Option ℚ
  num_bids : Int
  auction_end_time : Int
  auction_start_time : Option Int
  auction_status : String
deriving DecidableEq, Repr

/-- A row of the item_specifics table (db.py lines 68-75); its surrogate id
is never read by the code and is omitted. -/
structure SpecificRow where
  auction_id : Nat
  spec_key : String
  spec_value : Option String
deriving DecidableEq, Repr

/-- A row of the bids table (db.py lines 77-85); its surrogate id is never
read by the code and is omitted.  Multiplicity in the containing list models
row multiplicity. -/
structure BidRow where
  auction_id : Nat
  bid_amount : ℚ
  bid_time : Int
  bidder_id : Option String
  winning_bid : Bool
deriving DecidableEq, Repr

/-- The database state: the four tables plus the next values of the two
SERIAL sequences that are referenced through foreign keys. -/
structure DB where
  sellers : List SellerRow
  auctions : List AuctionRow
  item_specifics : List SpecificRow
  bids : List BidRow
  next_seller_id : Nat
  next_auction_id : Nat
deriving DecidableEq, Repr

/-- The empty database produced by a fresh schema. -/
def DB.empty : DB :=
  { sellers := [], auctions := [], item_specifics := [], bids := [],
    next_seller_id := 1, next_auction_id := 1 }

/-- The psycopg2 connection with autocommit off: the durable state and the
uncommitted working state of the open transaction. -/
structure Conn where
  committed : DB
  pending : DB
deriving DecidableEq, Repr

/-- A connection onto the empty database with no transaction in progress. -/
def Conn.empty : Conn := { committed := DB.empty, pending := DB.empty }

/-- The seller dict carried by an observed item: seller_data["ebay_user_id"]
is a required key (KeyError when absent), rating and feedback_score are read
with .get. -/
structure SellerData where
  ebay_user_id : Option String := none
  rating : Option ℚ := none
  feedback_score : Option Int := none
deriving DecidableEq, Repr

/-- A bid dict inside an observed item: bid["amount"] and bid["time"] are
required keys, bidder_id and winning_bid are read with .get (winning_bid
defaulting to False). -/
structure BidData where
  amount : Option ℚ := none
  time : Option Int := none
  bidder_id : Option String := none
  winning_bid : Option Bool := none
deriving DecidableEq, Repr

/-- An observed active item as consumed by DatabaseHandler.save_item.  Keys
read with item[...] are required (KeyError when absent) and keys read with
item.get(...) are optional; both appear here as `Option` fields, the former
failing the operation when `none`. -/
structure Item where
  item_id : Option String := none
  title : Option String := none
  url : Option String := none
  seller : Option SellerData := none
  search_pattern : Option String := none
  description : Option String := none
  condition : Option String := none
  current_price : Option ℚ := none
  buy_it_now_price : Option ℚ := none
  shipping_cost : Option ℚ := none
  num_bids : Option Int := none
  auction_end_time : Option Int := none
  auction_start_time : Option Int := none
  auction_status : Option String := none
  item_specifics : Option (List (String × Option String)) := none
  bids : Option (List BidData) := none
deriving DecidableEq, Repr

/-- An observed completed item as consumed by
DatabaseHandler.update_completed_items: item["item_id"] is required,
final_price, num_bids and bids are optional. -/
structure CompletedItem where
  item_id : Option String := none
  final_price : Option ℚ := none
  num_bids : Option Int := none
  bids : Option (List BidData) := none
deriving DecidableEq, Repr

/-- Embeds DatabaseHandler.get_seller_id (db.py lines 98-134): look the
seller up by marketplace user id; when found, update its rating and
feedback score and return the existing surrogate id; otherwise insert a new
row and return its freshly assigned id. -/
def get_seller_id (db : DB) (seller_data : SellerData) :
    Except String (DB × Nat) :=
  match seller_data.ebay_user_id with
  | none => .error "KeyError: ebay_user_id"
  | some uid =>
    match db.sellers.find? (fun s => s.ebay_user_id == uid) with
    | some s =>
      .ok ({ db with sellers := db.sellers.map (fun r =>
        if r.id = s.id then
          { r with rating := seller_data.rating,
                   feedback_score := seller_data.feedback_score }
        else r) }, s.id)
    | none =>
      .ok ({ db with
        sellers := db.sellers ++
          [{ id := db.next_seller_id, ebay_user_id := uid,
             rating := seller_data.rating,
             feedback_score := seller_data.feedback_score }],
        next_seller_id := db.next_seller_id + 1 }, db.next_seller_id)

/-- Embeds one item-specifics statement of save_item (db.py lines 239-247):
INSERT ... ON CONFLICT (auction_id, spec_key) DO UPDATE SET spec_value.
The item_specifics table has a UNIQUE (auction_id, spec_key) constraint, so
the insert overwrites the value when a row with the same pair exists. -/
def upsertSpecific (db : DB) (aid : Nat) (key : String) (value : Option String) :
    DB :=
  if db.item_specifics.any (fun s => s.auction_id == aid && s.spec_key == key) then
    { db with item_specifics := db.item_specifics.map (fun s =>
        if s.auction_id == aid && s.spec_key == key then
          { s with spec_value := value }
        else s) }
  else
    { db with item_specifics := db.item_specifics ++
        [{ auction_id := aid, spec_key := key, spec_value := value }] }

/-- Embeds the item-specifics loop of save_item (db.py lines 237-247): each
key/value pair of the observed mapping is upserted in order.  Python dict
iteration order is insertion order, modelled by the association list. -/
def apply_specifics (db : DB) (aid : Nat)
    (specs : List (String × Option String)) : DB :=
  specs.foldl (fun acc kv => upsertSpecific acc aid kv.1 kv.2) db

/-- Embeds the bids loop of save_item (db.py lines 250-268).  Each bid needs
its "amount" and "time" keys (KeyError when absent); the insert carries
ON CONFLICT DO NOTHING, which is inert on the bids table (no unique
constraint besides the SERIAL primary key), so every bid is appended. -/
def apply_bids (aid : Nat) : DB → List BidData → Except String DB
  | db, [] => .ok db
  | db, b :: rest =>
    match b.amount, b.time with
    | some amount, some btime =>
      apply_bids aid
        { db with bids := db.bids ++
            [{ auction_id := aid, bid_amount := amount, bid_time := btime,
               bidder_id := b.bidder_id,
               winning_bid := b.winning_bid.getD false }] } rest
    | _, _ => .error "KeyError: bid"

/-- Embeds the tail of save_item after the auction row has been written
(db.py lines 236-273): store the item specifics when present, then the bids
when present, and return the auction id. -/
def save_item_extras (db : DB) (aid : Nat) (item : Item) :
    Except String (DB × Nat) :=
  let db1 := apply_specifics db aid (item.item_specifics.getD [])
  match apply_bids aid db1 (item.bids.getD []) with
  | .ok db2 => .ok (db2, aid)
  | .error e => .error e

/-- Embeds the UPDATE of an existing auction row by save_item (db.py lines
174-203): the mutable fields are overwritten from the observed item, the
other columns (item_id, search_pattern, end and start time) are left as
stored. -/
def updatedAuctionRow (item : Item) (seller_id : Nat)
    (title url status : String) (r : AuctionRow) : AuctionRow :=
  { r with title := title, url := url, seller_id := seller_id,
           description := item.description,
           condition := item.condition,
           current_price := item.current_price,
           buy_it_now_price := item.buy_it_now_price,
           shipping_cost := item.shipping_cost,
           num_bids := item.num_bids.getD 0,
           auction_status := status }

/-- Embeds the INSERT of a new auction row by save_item (db.py lines
206-234): every column is taken from the observed item, the surrogate id
from the SERIAL sequence. -/
def newAuctionRow (item : Item) (seller_id aid : Nat)
    (iid title url sp : String) (endt : Int) (status : String) : AuctionRow :=
  { id := aid, item_id := iid, title := title, url := url,
    seller_id := seller_id, search_pattern := sp,
    description := item.description,
    condition := item.condition,
    current_price := item.current_price,
    buy_it_now_price := item.buy_it_now_price,
    shipping_cost := item.shipping_cost,
    num_bids := item.num_bids.getD 0,
    auction_end_time := endt,
    auction_start_time := item.auction_start_time,
    auction_status := status }

/-- Embeds the transaction body of DatabaseHandler.save_item (db.py lines
159-273), without the commit/rollback wrapper used in standalone calls:
resolve the seller, look the auction up by marketplace item id, update its
mutable fields when found (UPDATE ... WHERE id = auction_id, db.py lines
174-203) or insert a new row carrying the observed fields (db.py lines
206-234), then store specifics and bids.  Required dict keys are accessed
in source order; a missing one fails the whole operation. -/
def save_item (db : DB) (item : Item) : Except String (DB × Nat) :=
  match item.seller with
  | none => .error "KeyError: seller"
  | some sd =>
    match get_seller_id db sd with
    | .error e => .error e
    | .ok (db1, seller_id) =>
      match item.item_id with
      | none => .error "KeyError: item_id"
      | some iid =>
        match db1.auctions.find? (fun a => a.item_id == iid) with
        | some a =>
          match item.title, item.url, item.auction_status with
          | some title, some url, some status =>
            save_item_extras
              { db1 with auctions := db1.auctions.map (fun r =>
                  if r.id = a.id then
                    updatedAuctionRow item seller_id title url status r
                  else r) }
              a.id item
          | _, _, _ => .error "KeyError"
        | none =>
          match item.title, item.url, item.search_pattern,
                item.auction_end_time, item.auction_status with
          | some title, some url, some sp, some endt, some status =>
            save_item_extras
              { db1 with
                auctions := db1.auctions ++
                  [newAuctionRow item seller_id db1.next_auction_id
                     iid title url sp endt status],
                next_auction_id := db1.next_auction_id + 1 }
              db1.next_auction_id item
          | _, _, _, _, _ => .error "KeyError"

/-- Embeds the loop body of DatabaseHandler.save_items (db.py lines
143-144): each item is saved on the shared connection; the first failure
aborts the loop. -/
def save_items_go : DB → List Item → Except String DB
  | db, [] => .ok db
  | db, it :: rest =>
    match save_item db it with
    | .ok (db', _) => save_items_go db' rest
    | .error e => .error e

/-- Embeds DatabaseHandler.save_items (db.py lines 136-149): an empty batch
returns immediately; otherwise every item is saved inside one transaction,
followed by a single commit, with rollback and a re-raised exception when
any item fails. -/
def save_items (conn : Conn) (items : List Item) : Conn × Option String :=
  if items.isEmpty then (conn, none)
  else
    match save_items_go conn.pending items with
    | .ok db => ({ committed := db, pending := db }, none)
    | .error e =>
      ({ committed := conn.committed, pending := conn.committed }, some e)

/-- Embeds the SET clause of the finalize statement (db.py lines 305-314)
as applied to one auctions row: a row whose item_id matches the observed id
gets status "completed", the observed final price and the observed bid
count; every other row is untouched.  The statement carries no condition on
the current status. -/
def completedRowUpdate (item : CompletedItem) (iid : String)
    (a : AuctionRow) : AuctionRow :=
  if a.item_id == iid then
    { a with auction_status := "completed",
             current_price := item.final_price,
             num_bids := item.num_bids.getD 0 }
  else a

/-- Embeds one iteration of DatabaseHandler.update_completed_items (db.py
lines 302-344): UPDATE auctions SET auction_status, current_price, num_bids
WHERE item_id = observed id RETURNING id (no status filter); when a row was
updated and the observation carries a non-empty bid history, append its last
bid with the winning flag forced to TRUE (the insert's ON CONFLICT DO
NOTHING is inert on the bids table).  Returns the updated database and the
fetched RETURNING value. -/
def update_completed_item (db : DB) (item : CompletedItem) :
    Except String (DB × Option Nat) :=
  match item.item_id with
  | none => .error "KeyError: item_id"
  | some iid =>
    let result := db.auctions.find? (fun a => a.item_id == iid)
    let db1 := { db with
      auctions := db.auctions.map (completedRowUpdate item iid) }
    match result with
    | none => .ok (db1, none)
    | some a =>
      match item.bids with
      | none => .ok (db1, some a.id)
      | some bids =>
        match bids.getLast? with
        | none => .ok (db1, some a.id)
        | some wb =>
          match wb.amount, wb.time with
          | some amount, some btime =>
            .ok ({ db1 with bids := db1.bids ++
              [{ auction_id := a.id, bid_amount := amount,
                 bid_time := btime, bidder_id := wb.bidder_id,
                 winning_bid := true }] }, some a.id)
          | _, _ => .error "KeyError: bid"

/-- Embeds the loop body of DatabaseHandler.update_completed_items (db.py
lines 302-344) over a batch: the first failure aborts the loop. -/
def update_completed_items_go : DB → List CompletedItem → Except String DB
  | db, [] => .ok db
  | db, it :: rest =>
    match update_completed_item db it with
    | .ok (db', _) => update_completed_items_go db' rest
    | .error e => .error e

/-- Embeds DatabaseHandler.update_completed_items (db.py lines 295-350): an
empty batch returns immediately; otherwise every completion is applied
inside one transaction, followed by a single commit, with rollback and a
re-raised exception when any item fails. -/
def update_completed_items (conn : Conn) (items : List CompletedItem) :
    Conn × Option String :=
  if items.isEmpty then (conn, none)
  else
    match update_completed_items_go conn.pending items with
    | .ok db => ({ committed := db, pending := db }, none)
    | .error e =>
      ({ committed := conn.committed, pending := conn.committed }, some e)

/-- Embeds the polling interval conversion of run_daemon (main.py line 95):
the configured interval is given in minutes and converted to seconds. -/
def polling_interval_seconds (polling_interval_minutes : ℚ) : ℚ :=
  polling_interval_minutes * 60

/-- Embeds the drift-corrected sleep computation of run_daemon (main.py
lines 128-129): elapsed is the measured cycle duration and the result is
max(0, polling_interval - elapsed). -/
def sleep_time (polling_interval : ℚ) (elapsed : ℚ) : ℚ :=
  max 0 (polling_interval - elapsed)

/-- A single store operation, as issued by the reconciliation paths: a
seller resolution, an active-item upsert, or a completion. -/
inductive StoreOp where
  | resolveSeller (sd : SellerData)
  | saveItem (it : Item)
  | completeItem (it : CompletedItem)
deriving Repr

/-- Applies one store operation with per-operation commit/rollback
semantics: a failing operation leaves the database unchanged (db.py lines
145-147, 270-277 and 346-348 roll back on any exception). -/
def applyOp (db : DB) : StoreOp → DB
  | .resolveSeller sd =>
    match get_seller_id db sd with
    | .ok (db', _) => db'
    | .error _ => db
  | .saveItem it =>
    match save_item db it with
    | .ok (db', _) => db'
    | .error _ => db
  | .completeItem it =>
    match update_completed_item db it with
    | .ok (db', _) => db'
    | .error _ => db

/-- Applies a sequence of store operations in order. -/
def applyOps (db : DB) (ops : List StoreOp) : DB :=
  ops.foldl applyOp db

/-- The sellers table has no two rows with the same marketplace user id. -/
def sellersUnique (db : DB) : Prop :=
  (db.sellers.map SellerRow.ebay_user_id).Nodup

/-- The auctions table has no two rows with the same marketplace item id. -/
def auctionsUnique (db : DB) : Prop :=
  (db.auctions.map AuctionRow.item_id).Nodup

/-- Both business-key uniqueness invariants hold. -/
def storeUnique (db : DB) : Prop :=
  sellersUnique db ∧ auctionsUnique db

instance (db : DB) : Decidable (sellersUnique db) := by
  unfold sellersUnique; infer_instance

instance (db : DB) : Decidable (auctionsUnique db) := by
  unfold auctionsUnique; infer_instance

instance (db : DB) : Decidable (storeUnique db) := by
  unfold storeUnique; infer_instance

/-- Reads the stored value of an item specific by (auction id, key); none
when no such row exists. -/
def lookupSpec (db : DB) (aid : Nat) (key : String) : Option (Option String) :=
  (db.item_specifics.find?
    (fun s => s.auction_id == aid && s.spec_key == key)).map SpecificRow.spec_value

/-- Reads the stored status of the auction with the given marketplace item
id; none when the item id is not tracked. -/
def statusOf (db : DB) (iid : String) : Option String :=
  (db.auctions.find? (fun a => a.item_id == iid)).map AuctionRow.auction_status

/-- Reads the stored current price of the auction with the given
marketplace item id. -/
def priceOf (db : DB) (iid : String) : Option (Option ℚ) :=
  (db.auctions.find? (fun a => a.item_id == iid)).map AuctionRow.current_price

/-- A well-formed observed active item with marketplace item id "1". -/
def c1_item1 : Item :=
  { item_id := some "1", title := some "t1", url := some "u1",
    seller := some { ebay_user_id := some "s1" },
    search_pattern := some "rtx", current_price := some 100,
    auction_end_time := some 100, auction_status := some "active" }

/-- A malformed observed item: its required marketplace item id is
missing, so save_item raises KeyError on it. -/
def c1_item2_bad : Item :=
  { title := some "t2", url := some "u2",
    seller := some { ebay_user_id := some "s2" },
    search_pattern := some "rtx",
    auction_end_time := some 100, auction_status := some "active" }

/-- A well-formed observed active item with marketplace item id "3". -/
def c1_item3 : Item :=
  { item_id := some "3", title := some "t3", url := some "u3",
    seller := some { ebay_user_id := some "s3" },
    search_pattern := some "rtx", current_price := some 70,
    auction_end_time := some 100, auction_status := some "active" }

/-- The batch of 3 active items named by the claim: only item 2 is
malformed (missing item id). -/
def c1_batch : List Item := [c1_item1, c1_item2_bad, c1_item3]

/-- An observed active item carrying one bid, used to exercise the bid
insert path of save_item. -/
def c2_item : Item :=
  { item_id := some "1", title := some "t", url := some "u",
    seller := some { ebay_user_id := some "s1" },
    search_pattern := some "rtx", current_price := some 100,
    auction_end_time := some 100, auction_status := some "active",
    bids := some [{ amount := some 5, time := some 1 }] }

/-- The committed state after applying the one-item batch once. -/
def c2_once : Conn := (save_items Conn.empty [c2_item]).1

/-- The committed state after applying the same one-item batch twice. -/
def c2_twice : Conn := (save_items c2_once [c2_item]).1

/-- An observed active item carrying one bid, for the bid-deduplication
scenario. -/
def c3_item : Item :=
  { item_id := some "2", title := some "t", url := some "u",
    seller := some { ebay_user_id := some "s2" },
    search_pattern := some "rtx",
    auction_end_time := some 100, auction_status := some "active",
    bids := some [{ amount := some 7, time := some 3,
                    bidder_id := some "b1" }] }

/-- The store after saving the item once. -/
def c3_db1 : DB := applyOp DB.empty (.saveItem c3_item)

/-- The store after saving the identical item (hence the identical bid
tuple) a second time. -/
def c3_db2 : DB := applyOp c3_db1 (.saveItem c3_item)

/-- An observed active item with marketplace item id "1". -/
def c4_item : Item :=
  { item_id := some "1", title := some "t", url := some "u",
    seller := some { ebay_user_id := some "s1" },
    search_pattern := some "rtx", current_price := some 100,
    auction_end_time := some 100, auction_status := some "active" }

/-- An observed completion for item "1". -/
def c4_cmp : CompletedItem := { item_id := some "1", final_price := some 150 }

/-- The store after first observing item "1" as active. -/
def c4_db1 : DB := applyOp DB.empty (.saveItem c4_item)

/-- The store after finalizing item "1". -/
def c4_db2 : DB := applyOp c4_db1 (.completeItem c4_cmp)

/-- The store after re-observing item "1" as active once it was already
finalized. -/
def c4_db3 : DB := applyOp c4_db2 (.saveItem c4_item)

/-- An observed active item with marketplace item id "1", for the
finalize-twice scenario. -/
def c5_item : Item :=
  { item_id := some "1", title := some "t", url := some "u",
    seller := some { ebay_user_id := some "s1" },
    search_pattern := some "rtx", current_price := some 100,
    auction_end_time := some 100, auction_status := some "active" }

/-- The first observed completion of item "1", at final price 150. -/
def c5_cmp1 : CompletedItem := { item_id := some "1", final_price := some 150 }

/-- A second observed completion of item "1", at final price 160. -/
def c5_cmp2 : CompletedItem := { item_id := some "1", final_price := some 160 }

/-- The store after tracking item "1" and finalizing it once. -/
def c5_db2 : DB :=
  applyOp (applyOp DB.empty (.saveItem c5_item)) (.completeItem c5_cmp1)

/-- Reads the RETURNING value fetched by one finalize statement: none when
the operation raised, otherwise the fetched row id (or none when no row
matched). -/
def finalizeResult (db : DB) (item : CompletedItem) : Option (Option Nat) :=
  match update_completed_item db item with
  | .ok (_, r) => some r
  | .error _ => none

/-- An observed item whose marketplace item id "9" is not yet tracked and
whose observed status is "completed". -/
def c6_item : Item :=
  { item_id := some "9", title := some "t", url := some "u",
    seller := some { ebay_user_id := some "s1" },
    search_pattern := some "rtx",
    auction_end_time := some 100, auction_status := some "completed" }

/-- The store after saving that item into an empty store. -/
def c6_db : DB := applyOp DB.empty (.saveItem c6_item)

/-- An observed item whose required item id is missing, failing any batch
that contains it. -/
def c10_bad_item : Item :=
  { title := some "t", url := some "u",
    seller := some { ebay_user_id := some "s9" },
    search_pattern := some "rtx",
    auction_end_time := some 100, auction_status := some "active" }

/-- A well-formed observed completion for an untracked item id. -/
def c10_cmp : CompletedItem := { item_id := some "z", final_price := some 1 }

/-- An observed active item with marketplace item id "7", first
observation. -/
def c6_item0 : Item :=
  { item_id := some "7", title := some "t0", url := some "u0",
    seller := some { ebay_user_id := some "s1" },
    search_pattern := some "rtx",
    auction_end_time := some 100, auction_status := some "active" }

/-- The store tracking item "7". -/
def c6_prev : DB := applyOp DB.empty (.saveItem c6_item0)

/-- A re-observation of item "7" with a changed title and url. -/
def c6_item1 : Item :=
  { item_id := some "7", title := some "t1", url := some "u1",
    seller := some { ebay_user_id := some "s1" },
    search_pattern := some "rtx", current_price := some 90,
    auction_end_time := some 100, auction_status := some "active" }

/-- The store after the re-observation of item "7". -/
def c6_upd : DB := applyOp c6_prev (.saveItem c6_item1)

/-- The store holding the specific A = 1 for auction 1. -/
def c7_dbA : DB := apply_specifics DB.empty 1 [("A", some "1")]

/-- The store after then merging the mapping containing only B = 2 for
auction 1. -/
def c7_dbAB : DB := apply_specifics c7_dbA 1 [("B", some "2")]

/-- The seller facts used by the concrete uniqueness scenario. -/
def c9_sd : SellerData :=
  { ebay_user_id := some "s1", rating := some 5, feedback_score := some 10 }

/-- An observed active item sold by that seller. -/
def c9_item : Item :=
  { item_id := some "1", title := some "t", url := some "u",
    seller := some c9_sd, search_pattern := some "rtx",
    auction_end_time := some 100, auction_status := some "active" }

/-- A concrete operation sequence that resolves the same seller and saves
the same item repeatedly, with a completion in between. -/
def c9_ops : List StoreOp :=
  [.resolveSeller c9_sd, .saveItem c9_item,
   .completeItem { item_id := some "1", final_price := some 7 },
   .resolveSeller c9_sd, .saveItem c9_item]

/-- The store after one resolution of the seller. -/
def c9_db0 : DB := applyOp DB.empty (.resolveSeller c9_sd)

/-- The store after resolving the same seller facts a second time. -/
def c9_db1 : DB := applyOp c9_db0 (.resolveSeller c9_sd)

/-- C1: the claim is false on the code.  For the batch of 3 items where only
item 2 is malformed, save_items (db.py lines 136-149) rolls the whole
transaction back and re-raises, so items 1 and 3 are NOT persisted: the
committed auctions table stays empty while a failure is reported. -/
theorem c1_partial_failure_counterexample :
    (save_items Conn.empty c1_batch).2 = some "KeyError: item_id" ∧
    (save_items Conn.empty c1_batch).1.committed.auctions = [] := by
  constructor <;> rfl

/-- C1 (amended): when one item of an observed active batch fails to write
(here the missing item id of item 2 in the 3-item batch), the whole batch is
rolled back — no item of the batch is persisted, the store is left exactly
as it was, and the exception propagates to the caller. -/
theorem c1_batch_failure_rolls_back :
    save_items Conn.empty c1_batch = (Conn.empty, some "KeyError: item_id") := by
  rfl

/-- C2: applying the same active batch twice is not idempotent.  The bids
table (db.py lines 77-85) has no unique constraint besides its SERIAL
primary key, so the ON CONFLICT DO NOTHING on the bid insert (db.py lines
252-268) never fires and the second application appends a second identical
bid row. -/
theorem c2_reapplication_duplicates_bids :
    c2_once.committed.bids =
      [{ auction_id := 1, bid_amount := 5, bid_time := 1,
         bidder_id := none, winning_bid := false }] ∧
    c2_twice.committed.bids =
      [{ auction_id := 1, bid_amount := 5, bid_time := 1,
         bidder_id := none, winning_bid := false },
       { auction_id := 1, bid_amount := 5, bid_time := 1,
         bidder_id := none, winning_bid := false }] := by
  constructor <;> rfl

/-- C3: appending a bid whose (auction, amount, time, bidder) tuple is
already stored is not a no-op: the bids table has no unique constraint on
that tuple, so the inert ON CONFLICT DO NOTHING lets a second identical row
through and two rows end up stored. -/
theorem c3_identical_bid_reinserted :
    c3_db1.bids =
      [{ auction_id := 1, bid_amount := 7, bid_time := 3,
         bidder_id := some "b1", winning_bid := false }] ∧
    c3_db2.bids =
      [{ auction_id := 1, bid_amount := 7, bid_time := 3,
         bidder_id := some "b1", winning_bid := false },
       { auction_id := 1, bid_amount := 7, bid_time := 3,
         bidder_id := some "b1", winning_bid := false }] := by
  constructor <;> rfl

/-- C4: the claim is false on the code.  The update path of save_item
(db.py lines 174-203) writes the observed auction_status unconditionally,
so re-observing a finalized item as active moves its status from
"completed" back to "active". -/
theorem c4_completed_to_active_counterexample :
    statusOf c4_db2 "1" = some "completed" ∧
    statusOf c4_db3 "1" = some "active" := by
  constructor <;> rfl

/-- C5: the claim is false on the code.  The finalize statement (db.py
lines 305-320) filters on item_id only, with no status condition, so a
second completion for an already-completed auction is not a no-op returning
none: it matches the row again, overwrites the stored price (150 to 160)
and returns the auction key. -/
theorem c5_finalize_ignores_status_counterexample :
    statusOf c5_db2 "1" = some "completed" ∧
    priceOf c5_db2 "1" = some (some 150) ∧
    finalizeResult c5_db2 c5_cmp2 = some (some 1) ∧
    priceOf (applyOp c5_db2 (.completeItem c5_cmp2)) "1" = some (some 160) := by
  exact ⟨rfl, rfl, rfl, rfl⟩

/-- C6: the claim is false on the code.  The insert path of save_item
(db.py lines 206-234) stores the observed auction_status value rather than
a hard-coded "active": inserting a not-yet-tracked item whose observed
status is "completed" creates a row with status "completed". -/
theorem c6_insert_status_counterexample :
    statusOf c6_db "9" = some "completed" ∧
    statusOf c6_db "9" ≠ some "active" := by
  exact ⟨rfl, by decide⟩

/-- C8: the inter-cycle sleep computed by run_daemon (main.py lines
128-129) equals the configured interval minus the cycle duration when the
cycle was shorter than the interval, and zero otherwise. -/
theorem c8_sleep_drift_correction (T d : ℚ) :
    (d < T → sleep_time T d = T - d) ∧ (T ≤ d → sleep_time T d = 0) := by
  constructor
  · intro h
    exact max_eq_right (by linarith)
  · intro h
    exact max_eq_left (by linarith)

/-- C8 witness: a 300-second interval with a 120-second cycle sleeps 180
seconds, and with a 450-second cycle sleeps zero. -/
theorem c8_sleep_drift_correction_witness :
    sleep_time 300 120 = 180 ∧ sleep_time 300 450 = 0 := by
  constructor
  · rw [(c8_sleep_drift_correction 300 120).1 (by norm_num)]; norm_num
  · exact (c8_sleep_drift_correction 300 450).2 (by norm_num)

/-- The mutable-field update of an auction row keeps its item id. -/
theorem updatedAuctionRow_item_id (item : Item) (sid : Nat)
    (title url status : String) (r : AuctionRow) :
    (updatedAuctionRow item sid title url status r).item_id = r.item_id := rfl

/-- The mutable-field update of an auction row writes the observed status. -/
theorem updatedAuctionRow_status (item : Item) (sid : Nat)
    (title url status : String) (r : AuctionRow) :
    (updatedAuctionRow item sid title url status r).auction_status = status := rfl

/-- Upserting one item specific changes neither the auctions nor the
sellers table. -/
theorem upsertSpecific_frame (db : DB) (aid : Nat) (k : String)
    (v : Option String) :
    (upsertSpecific db aid k v).auctions = db.auctions ∧
    (upsertSpecific db aid k v).sellers = db.sellers := by
  unfold upsertSpecific
  split <;> exact ⟨rfl, rfl⟩

/-- The item-specifics loop changes neither the auctions nor the sellers
table. -/
theorem apply_specifics_frame (aid : Nat) :
    ∀ (l : List (String × Option String)) (db : DB),
      (apply_specifics db aid l).auctions = db.auctions ∧
      (apply_specifics db aid l).sellers = db.sellers := by
  intro l
  induction l with
  | nil => intro db; exact ⟨rfl, rfl⟩
  | cons kv rest ih =>
    intro db
    have h1 := upsertSpecific_frame db aid kv.1 kv.2
    have h2 := ih (upsertSpecific db aid kv.1 kv.2)
    exact ⟨h2.1.trans h1.1, h2.2.trans h1.2⟩

/-- A successful bids loop changes neither the auctions nor the sellers nor
the item_specifics table. -/
theorem apply_bids_ok_frame {aid : Nat} :
    ∀ {l : List BidData} {db db' : DB}, apply_bids aid db l = .ok db' →
      db'.auctions = db.auctions ∧ db'.sellers = db.sellers ∧
      db'.item_specifics = db.item_specifics := by
  intro l
  induction l with
  | nil =>
    intro db db' h
    cases h
    exact ⟨rfl, rfl, rfl⟩
  | cons b rest ih =>
    intro db db' h
    simp only [apply_bids] at h
    split at h
    · have h2 := ih h
      exact h2
    · cases h

/-- A successful run of the specifics-and-bids tail of save_item returns
the auction id it was given and changes neither the auctions nor the
sellers table. -/
theorem save_item_extras_ok {db : DB} {aid : Nat} {item : Item} {db' : DB}
    {aid' : Nat} (h : save_item_extras db aid item = .ok (db', aid')) :
    aid' = aid ∧ db'.auctions = db.auctions ∧ db'.sellers = db.sellers := by
  simp only [save_item_extras] at h
  cases hb : apply_bids aid (apply_specifics db aid (item.item_specifics.getD []))
      (item.bids.getD []) with
  | error e => rw [hb] at h; cases h
  | ok db2 =>
    rw [hb] at h
    cases h
    have hf := apply_bids_ok_frame hb
    have hs := apply_specifics_frame aid (item.item_specifics.getD []) db
    exact ⟨rfl, hf.1.trans hs.1, hf.2.1.trans hs.2⟩

/-- Characterizes a successful seller resolution: the other tables are
untouched, and the sellers table is either mapped in place (business key
found, rating and feedback refreshed on the found row) or extended by one
fresh row (business key absent). -/
theorem get_seller_id_ok_shape {db : DB} {sd : SellerData} {db1 : DB}
    {sid : Nat} (h : get_seller_id db sd = .ok (db1, sid)) :
    db1.auctions = db.auctions ∧ db1.item_specifics = db.item_specifics ∧
    db1.bids = db.bids ∧ db1.next_auction_id = db.next_auction_id ∧
    ∃ uid, sd.ebay_user_id = some uid ∧
      ((∃ s, db.sellers.find? (fun r => r.ebay_user_id == uid) = some s ∧
          sid = s.id ∧
          db1.sellers = db.sellers.map (fun r =>
            if r.id = s.id then
              { r with rating := sd.rating,
                       feedback_score := sd.feedback_score }
            else r)) ∨
       (db.sellers.find? (fun r => r.ebay_user_id == uid) = none ∧
        sid = db.next_seller_id ∧
        db1.sellers = db.sellers ++
          [{ id := db.next_seller_id, ebay_user_id := uid,
             rating := sd.rating, feedback_score := sd.feedback_score }])) := by
  unfold get_seller_id at h
  split at h
  · cases h
  · rename_i uid hu
    split at h
    · rename_i s hf
      cases h
      exact ⟨rfl, rfl, rfl, rfl, uid, hu, Or.inl ⟨s, hf, rfl, rfl⟩⟩
    · rename_i hf
      cases h
      exact ⟨rfl, rfl, rfl, rfl, uid, hu, Or.inr ⟨hf, rfl, rfl⟩⟩

/-- Characterizes a successful save_item run: the seller is resolved first,
all required item keys were present, the sellers table is exactly the one
the seller resolution produced, and the auctions table is either mapped in
place (item id found: the found row's surrogate id is returned and the row
is overwritten with the observed mutable fields) or extended by one fresh
row built from the observation (item id absent). -/
theorem save_item_ok_shape {db : DB} {item : Item} {db' : DB} {aid : Nat}
    (h : save_item db item = .ok (db', aid)) :
    ∃ sd db1 sid, item.seller = some sd ∧
      get_seller_id db sd = .ok (db1, sid) ∧
    ∃ iid title url status, item.item_id = some iid ∧
      item.title = some title ∧ item.url = some url ∧
      item.auction_status = some status ∧
      db'.sellers = db1.sellers ∧
      ((∃ a, db1.auctions.find? (fun x => x.item_id == iid) = some a ∧
          aid = a.id ∧
          db'.auctions = db1.auctions.map (fun r =>
            if r.id = a.id then updatedAuctionRow item sid title url status r
            else r)) ∨
       (db1.auctions.find? (fun x => x.item_id == iid) = none ∧
        aid = db1.next_auction_id ∧
        ∃ sp endt, item.search_pattern = some sp ∧
          item.auction_end_time = some endt ∧
          db'.auctions = db1.auctions ++
            [newAuctionRow item sid db1.next_auction_id iid title url sp
               endt status])) := by
  unfold save_item at h
  split at h
  · cases h
  · rename_i sd hs
    split at h
    · cases h
    · rename_i p db1 sid hg
      split at h
      · cases h
      · rename_i iid hi
        refine ⟨sd, db1, sid, hs, hg, ?_⟩
        split at h
        · rename_i a hf
          split at h
          · rename_i title url status ht hurl hst
            obtain ⟨haid, hauc, hsell⟩ := save_item_extras_ok h
            exact ⟨iid, title, url, status, hi, ht, hurl, hst, hsell,
              Or.inl ⟨a, hf, haid, hauc⟩⟩
          · cases h
        · rename_i hf
          split at h
          · rename_i title url sp endt status ht hurl hsp he hst
            obtain ⟨haid, hauc, hsell⟩ := save_item_extras_ok h
            exact ⟨iid, title, url, status, hi, ht, hurl, hst, hsell,
              Or.inr ⟨hf, haid, ⟨sp, endt, hsp, he, hauc⟩⟩⟩
          · cases h

/-- Characterizes a successful finalize run: the sellers table is untouched
and the auctions table is mapped row-by-row through the finalize SET
clause. -/
theorem update_completed_item_ok_shape {db : DB} {item : CompletedItem}
    {db' : DB} {res : Option Nat}
    (h : update_completed_item db item = .ok (db', res)) :
    ∃ iid, item.item_id = some iid ∧
      db'.auctions = db.auctions.map (completedRowUpdate item iid) ∧
      db'.sellers = db.sellers := by
  simp only [update_completed_item] at h
  split at h
  · cases h
  · rename_i iid hi
    refine ⟨iid, hi, ?_⟩
    split at h
    · cases h
      exact ⟨rfl, rfl⟩
    · split at h
      · cases h
        exact ⟨rfl, rfl⟩
      · split at h
        · cases h
          exact ⟨rfl, rfl⟩
        · split at h
          · cases h
            exact ⟨rfl, rfl⟩
          · cases h

/-- Finalizing an item id that no auction row carries maps every row to
itself. -/
theorem completedRowUpdate_map_no_match (item : CompletedItem) (iid : String)
    {l : List AuctionRow}
    (h : l.find? (fun a => a.item_id == iid) = none) :
    l.map (completedRowUpdate item iid) = l := by
  have h' := List.find?_eq_none.mp h
  have hcong : l.map (completedRowUpdate item iid) = l.map id :=
    List.map_congr_left (fun a ha => by
      show completedRowUpdate item iid a = a
      unfold completedRowUpdate
      rw [if_neg (h' a ha)])
  rw [hcong, List.map_id]

/-- C10: batch writes are atomic at whole-batch granularity.  For both the
active path (save_items, db.py lines 136-149) and the completed path
(update_completed_items, db.py lines 295-350): when the per-item loop fails
at any item, the transaction is rolled back — the committed state is
exactly what it was before the batch began and the exception propagates
(first and third conjuncts) — and when every item succeeds on a non-empty
batch, the accumulated writes become durable through the single commit
executed after the last item (second and fourth conjuncts). -/
theorem c10_batch_atomicity (conn : Conn) :
    (∀ (items : List Item) (e : String),
        save_items_go conn.pending items = .error e →
        save_items conn items =
          ({ committed := conn.committed, pending := conn.committed }, some e))
  ∧ (∀ (items : List Item) (db : DB),
        save_items_go conn.pending items = .ok db → items ≠ [] →
        save_items conn items = ({ committed := db, pending := db }, none))
  ∧ (∀ (items : List CompletedItem) (e : String),
        update_completed_items_go conn.pending items = .error e →
        update_completed_items conn items =
          ({ committed := conn.committed, pending := conn.committed }, some e))
  ∧ (∀ (items : List CompletedItem) (db : DB),
        update_completed_items_go conn.pending items = .ok db → items ≠ [] →
        update_completed_items conn items =
          ({ committed := db, pending := db }, none)) := by
  refine ⟨?_, ?_, ?_, ?_⟩
  · intro items e h
    cases items with
    | nil => simp [save_items_go] at h
    | cons it rest => simp [save_items, h]
  · intro items db h hne
    cases items with
    | nil => exact absurd rfl hne
    | cons it rest => simp [save_items, h]
  · intro items e h
    cases items with
    | nil => simp [update_completed_items_go] at h
    | cons it rest => simp [update_completed_items, h]
  · intro items db h hne
    cases items with
    | nil => exact absurd rfl hne
    | cons it rest => simp [update_completed_items, h]

/-- C10 witness: on the empty connection, a failing one-item active batch
rolls back to the empty committed state and reports the error, and a
successful one-item completed batch commits. -/
theorem c10_batch_atomicity_witness :
    save_items Conn.empty [c10_bad_item] =
      ({ committed := DB.empty, pending := DB.empty }, some "KeyError: item_id") ∧
    update_completed_items Conn.empty [c10_cmp] =
      ({ committed := DB.empty, pending := DB.empty }, none) := by
  constructor
  · exact (c10_batch_atomicity Conn.empty).1 [c10_bad_item] "KeyError: item_id" rfl
  · exact (c10_batch_atomicity Conn.empty).2.2.2 [c10_cmp] DB.empty rfl
      (List.cons_ne_nil _ _)

/-- C5 (amended): finalize matches by marketplace item id alone, with no
condition on the stored status.  It is a benign no-op returning none
exactly when no auction row carries the observed item id (never tracked);
whenever a row with that item id exists — whatever its status, including an
already-completed one — the statement takes effect again and the auction
key is returned (shown on a bid-free completion; the counterexample shows
the repeated effect on an already-completed row). -/
theorem c5_finalize_amended :
    (∀ (db : DB) (item : CompletedItem) (iid : String),
        item.item_id = some iid →
        db.auctions.find? (fun a => a.item_id == iid) = none →
        update_completed_item db item = .ok (db, none))
  ∧ (∀ (db : DB) (item : CompletedItem) (iid : String) (a : AuctionRow),
        item.item_id = some iid → item.bids = none →
        db.auctions.find? (fun a => a.item_id == iid) = some a →
        ∃ db', update_completed_item db item = .ok (db', some a.id)) := by
  constructor
  · intro db item iid hi hf
    have hmap := completedRowUpdate_map_no_match item iid hf
    simp only [update_completed_item, hi, hf, hmap]
  · intro db item iid a hi hb hf
    refine ⟨{ db with
      auctions := db.auctions.map (completedRowUpdate item iid) }, ?_⟩
    simp only [update_completed_item, hi, hf, hb]

/-- C5 witness: finalizing the never-tracked item id "z" on the empty store
is a no-op returning none, and finalizing the tracked item "1" (stored
completed) returns its auction key 1. -/
theorem c5_finalize_amended_witness :
    update_completed_item DB.empty { item_id := some "z" } =
      .ok (DB.empty, none) ∧
    ∃ db', update_completed_item c5_db2 c5_cmp2 = .ok (db', some 1) := by
  constructor
  · exact (c5_finalize_amended).1 DB.empty { item_id := some "z" } "z" rfl rfl
  · exact (c5_finalize_amended).2 c5_db2 c5_cmp2 "1"
      { id := 1, item_id := "1", title := "t", url := "u", seller_id := 1,
        search_pattern := "rtx", description := none, condition := none,
        current_price := some 150, buy_it_now_price := none,
        shipping_cost := none, num_bids := 0, auction_end_time := 100,
        auction_start_time := none, auction_status := "completed" }
      rfl rfl (by decide)

/-- C4 (amended): the finalization path never moves a status away from
"completed" — every auction row it changes ends "completed", so completions
alone never transition completed back to active (first conjunct).  The
active-upsert path, however, writes the observed status unconditionally:
after a successful save_item, every stored row carrying the observed item
id has exactly the observed status (second conjunct), which moves an
already-completed auction back to "active" when the observation says
"active", as the counterexample shows. -/
theorem c4_status_monotone_amended :
    (∀ (db : DB) (item : CompletedItem) (db' : DB) (res : Option Nat),
        update_completed_item db item = .ok (db', res) →
        ∀ r ∈ db'.auctions, r ∈ db.auctions ∨ r.auction_status = "completed")
  ∧ (∀ (db : DB) (item : Item) (iid st : String) (db' : DB) (aid : Nat),
        (db.auctions.map AuctionRow.item_id).Nodup →
        item.item_id = some iid → item.auction_status = some st →
        save_item db item = .ok (db', aid) →
        ∀ r ∈ db'.auctions, r.item_id = iid → r.auction_status = st) := by
  constructor
  · intro db item db' res h r hr
    obtain ⟨iid, -, hauc, -⟩ := update_completed_item_ok_shape h
    rw [hauc] at hr
    obtain ⟨x, hx, hfx⟩ := List.mem_map.mp hr
    unfold completedRowUpdate at hfx
    by_cases hc : (x.item_id == iid) = true
    · rw [if_pos hc] at hfx
      right
      rw [← hfx]
    · rw [if_neg hc] at hfx
      left
      rw [← hfx]
      exact hx
  · intro db item iid st db' aid hnd hi hst h r hr hrid
    obtain ⟨sd, db1, sid, hs, hg, iid', title, url, status, hi', ht, hu',
      hst', hsell, hbr⟩ := save_item_ok_shape h
    rw [hi] at hi'
    injection hi' with hiid
    subst hiid
    rw [hst] at hst'
    injection hst' with hstt
    subst hstt
    have hauc1 : db1.auctions = db.auctions := (get_seller_id_ok_shape hg).1
    cases hbr with
    | inl hupd =>
      obtain ⟨a, hf, -, hauc⟩ := hupd
      rw [hauc] at hr
      obtain ⟨x, hx, hfx⟩ := List.mem_map.mp hr
      have hxid : x.item_id = iid := by
        by_cases hc : x.id = a.id
        · rw [if_pos hc] at hfx
          rw [← updatedAuctionRow_item_id item sid title url st x, hfx]
          exact hrid
        · rw [if_neg hc] at hfx
          rw [hfx]
          exact hrid
      have ha_mem : a ∈ db1.auctions := List.mem_of_find?_eq_some hf
      have ha_id : a.item_id = iid := by simpa using List.find?_some hf
      rw [hauc1] at hx ha_mem
      have hxa : x = a :=
        List.inj_on_of_nodup_map hnd hx ha_mem (by rw [hxid, ha_id])
      rw [hxa, if_pos rfl] at hfx
      rw [← hfx]
      exact updatedAuctionRow_status item sid title url st a
    | inr hins =>
      obtain ⟨hf, -, sp, endt, hsp, he, hauc⟩ := hins
      rw [hauc] at hr
      rcases List.mem_append.mp hr with hold | hnew
      · exfalso
        exact List.find?_eq_none.mp hf r hold (by simpa using hrid)
      · have hrn : r = newAuctionRow item sid db1.next_auction_id iid title
            url sp endt st := by simpa using hnew
        rw [hrn]
        rfl

/-- C4 witness: instantiates both conjuncts on the concrete
track-finalize-retrack scenario of the counterexample. -/
theorem c4_status_monotone_amended_witness :
    (∀ r ∈ c4_db2.auctions,
        r ∈ c4_db1.auctions ∨ r.auction_status = "completed") ∧
    (∀ r ∈ c4_db3.auctions, r.item_id = "1" → r.auction_status = "active") := by
  constructor
  · exact (c4_status_monotone_amended).1 c4_db1 c4_cmp c4_db2 (some 1) rfl
  · exact (c4_status_monotone_amended).2 c4_db2 c4_item "1" "active" c4_db3 1
      (by decide) rfl rfl rfl

/-- C6 (amended): for an observed item whose marketplace item id is not yet
stored, save_item inserts a new row whose status is the item's observed
status (the insert writes item["auction_status"], not a hard-coded
"active"); for an item id already present it updates the mutable fields
(title, url, seller, price fields, bid count, description, condition,
status) on the stored row and returns the internal key. -/
theorem c6_upsert_amended :
    (∀ (db : DB) (item : Item) (iid st : String) (db' : DB) (aid : Nat),
        item.item_id = some iid → item.auction_status = some st →
        db.auctions.find? (fun x => x.item_id == iid) = none →
        save_item db item = .ok (db', aid) →
        ∃ r ∈ db'.auctions, r.id = aid ∧ r.item_id = iid ∧
          r.auction_status = st)
  ∧ (∀ (db : DB) (item : Item) (iid : String) (a : AuctionRow) (db' : DB)
        (aid : Nat),
        item.item_id = some iid →
        db.auctions.find? (fun x => x.item_id == iid) = some a →
        save_item db item = .ok (db', aid) →
        aid = a.id ∧ ∃ r ∈ db'.auctions, r.id = a.id ∧
          item.title = some r.title ∧ item.url = some r.url ∧
          item.auction_status = some r.auction_status ∧
          r.description = item.description ∧ r.condition = item.condition ∧
          r.current_price = item.current_price ∧
          r.buy_it_now_price = item.buy_it_now_price ∧
          r.shipping_cost = item.shipping_cost ∧
          r.num_bids = item.num_bids.getD 0 ∧
          (∀ (sd : SellerData) (dbx : DB) (sid : Nat),
            item.seller = some sd → get_seller_id db sd = .ok (dbx, sid) →
            r.seller_id = sid)) := by
  constructor
  · intro db item iid st db' aid hi hst hf h
    obtain ⟨sd, db1, sid, hs, hg, iid', title, url, status, hi', ht, hu',
      hst', hsell, hbr⟩ := save_item_ok_shape h
    rw [hi] at hi'
    injection hi' with hiid
    subst hiid
    rw [hst] at hst'
    injection hst' with hstt
    subst hstt
    have hauc1 : db1.auctions = db.auctions := (get_seller_id_ok_shape hg).1
    cases hbr with
    | inl hupd =>
      obtain ⟨a, hfa, -, -⟩ := hupd
      rw [hauc1, hf] at hfa
      cases hfa
    | inr hins =>
      obtain ⟨-, haid, sp, endt, hsp, he, hauc⟩ := hins
      refine ⟨newAuctionRow item sid db1.next_auction_id iid title url sp
        endt st, ?_, ?_, rfl, rfl⟩
      · rw [hauc]
        exact List.mem_append_right _ (List.mem_singleton_self _)
      · rw [haid]
        rfl
  · intro db item iid a db' aid hi hf h
    obtain ⟨sd, db1, sid, hs, hg, iid', title, url, status, hi', ht, hu',
      hst', hsell, hbr⟩ := save_item_ok_shape h
    rw [hi] at hi'
    injection hi' with hiid
    subst hiid
    have hauc1 : db1.auctions = db.auctions := (get_seller_id_ok_shape hg).1
    cases hbr with
    | inr hins =>
      obtain ⟨hfn, -⟩ := hins
      rw [hauc1, hf] at hfn
      cases hfn
    | inl hupd =>
      obtain ⟨a', hfa, haid, hauc⟩ := hupd
      rw [hauc1, hf] at hfa
      injection hfa with haa
      subst haa
      refine ⟨haid, updatedAuctionRow item sid title url status a, ?_, rfl,
        ht, hu', hst', rfl, rfl, rfl, rfl, rfl, rfl, ?_⟩
      · rw [hauc]
        have hmem : a ∈ db1.auctions := by
          rw [hauc1]
          exact List.mem_of_find?_eq_some hf
        have hmap := List.mem_map_of_mem (fun r =>
          if r.id = a.id then updatedAuctionRow item sid title url status r
          else r) hmem
        simpa using hmap
      · intro sd2 dbx sid2 hs2 hg2
        rw [hs] at hs2
        injection hs2 with hsd
        subst hsd
        rw [hg] at hg2
        injection hg2 with hp
        rw [Prod.mk.injEq] at hp
        rw [← hp.2]
        rfl

/-- C6 witness: the insert conjunct on the concrete "completed"-status
insert of the counterexample, and the update conjunct on a concrete
re-observation of a tracked item. -/
theorem c6_upsert_amended_witness :
    (∃ r ∈ c6_db.auctions, r.id = 1 ∧ r.item_id = "9" ∧
        r.auction_status = "completed") ∧
    (1 = 1 ∧ ∃ r ∈ c6_upd.auctions, r.id = 1 ∧
        c6_item1.title = some r.title ∧ c6_item1.url = some r.url ∧
        c6_item1.auction_status = some r.auction_status ∧
        r.description = c6_item1.description ∧
        r.condition = c6_item1.condition ∧
        r.current_price = c6_item1.current_price ∧
        r.buy_it_now_price = c6_item1.buy_it_now_price ∧
        r.shipping_cost = c6_item1.shipping_cost ∧
        r.num_bids = c6_item1.num_bids.getD 0 ∧
        (∀ (sd : SellerData) (dbx : DB) (sid : Nat),
          c6_item1.seller = some sd →
          get_seller_id c6_prev sd = .ok (dbx, sid) →
          r.seller_id = sid)) := by
  constructor
  · exact (c6_upsert_amended).1 DB.empty c6_item "9" "completed" c6_db 1
      rfl rfl rfl rfl
  · exact (c6_upsert_amended).2 c6_prev c6_item1 "7"
      { id := 1, item_id := "7", title := "t0", url := "u0", seller_id := 1,
        search_pattern := "rtx", description := none, condition := none,
        current_price := none, buy_it_now_price := none,
        shipping_cost := none, num_bids := 0, auction_end_time := 100,
        auction_start_time := none, auction_status := "active" }
      c6_upd 1 rfl (by decide) rfl

/-- Finding by (auction id, key) commutes with the value-overwriting map of
the specifics upsert. -/
theorem find?_map_upd (aid' : Nat) (k' : String) (aid : Nat) (k : String)
    (v : Option String) :
    ∀ l : List SpecificRow,
      List.find? (fun s => s.auction_id == aid' && s.spec_key == k')
        (l.map (fun s => if s.auction_id == aid && s.spec_key == k then
          { s with spec_value := v } else s)) =
      Option.map (fun s => if s.auction_id == aid && s.spec_key == k then
          { s with spec_value := v } else s)
        (List.find? (fun s => s.auction_id == aid' && s.spec_key == k') l) := by
  intro l
  induction l with
  | nil => rfl
  | cons s rest ih =>
    by_cases hsc : (s.auction_id == aid && s.spec_key == k) = true <;>
      by_cases hc : (s.auction_id == aid' && s.spec_key == k') = true <;>
      simp only [Bool.and_eq_true, beq_iff_eq] at hsc hc ih ⊢ <;>
      simp [List.find?, hsc, hc, ih, -List.find?_map]
    · have ha : aid' = aid := hc.1.symm.trans hsc.1
      have hk : k' = k := hc.2.symm.trans hsc.2
      subst ha
      subst hk
      simp [hsc.1, hsc.2]
    · by_cases haa : aid = aid'
      · have hkk : (k == k') = false := beq_eq_false_iff_ne.mpr
          (fun hy => hc ⟨hsc.1.trans haa, hsc.2.trans hy⟩)
        simp [hkk]
      · have hbb : (aid == aid') = false := beq_eq_false_iff_ne.mpr haa
        simp [hbb]
    · have hscP : ¬(aid' = aid ∧ k' = k) :=
        fun hx => hsc ⟨hc.1.trans hx.1, hc.2.trans hx.2⟩
      simp [hscP, hc.1, hc.2]
    · by_cases haa : s.auction_id = aid'
      · have hkk : (s.spec_key == k') = false := beq_eq_false_iff_ne.mpr
          (fun hy => hc ⟨haa, hy⟩)
        simp [hkk]
      · have hbb : (s.auction_id == aid') = false := beq_eq_false_iff_ne.mpr haa
        simp [hbb]

/-- Upserting the pair (aid, k) with value v makes the stored value of
(aid, k) exactly v. -/
theorem lookupSpec_upsert_same (db : DB) (aid : Nat) (k : String)
    (v : Option String) :
    lookupSpec (upsertSpecific db aid k v) aid k = some v := by
  unfold lookupSpec upsertSpecific
  split
  · rename_i hany
    rw [find?_map_upd]
    obtain ⟨s0, hs0mem, hs0p⟩ := List.any_eq_true.mp hany
    cases hfind : List.find?
        (fun s => s.auction_id == aid && s.spec_key == k)
        db.item_specifics with
    | none => exact absurd hs0p (List.find?_eq_none.mp hfind s0 hs0mem)
    | some s1 =>
      have hp1 := List.find?_some hfind
      simp only [Bool.and_eq_true, beq_iff_eq] at hp1
      simp [hp1]
  · rename_i hany
    have hanyf : db.item_specifics.any
        (fun s => s.auction_id == aid && s.spec_key == k) = false :=
      Bool.eq_false_iff.mpr hany
    have hnone : List.find?
        (fun s => s.auction_id == aid && s.spec_key == k)
        db.item_specifics = none :=
      List.find?_eq_none.mpr (List.any_eq_false.mp hanyf)
    rw [List.find?_append, hnone]
    simp [List.find?]

/-- Upserting the pair (aid, k) leaves the stored value of every other
(auction id, key) pair unchanged. -/
theorem lookupSpec_upsert_other (db : DB) (aid : Nat) (k : String)
    (v : Option String) (aid' : Nat) (k' : String)
    (hne : aid' ≠ aid ∨ k' ≠ k) :
    lookupSpec (upsertSpecific db aid k v) aid' k' = lookupSpec db aid' k' := by
  unfold lookupSpec upsertSpecific
  split
  · rename_i hany
    rw [find?_map_upd]
    cases hfind : List.find?
        (fun s => s.auction_id == aid' && s.spec_key == k')
        db.item_specifics with
    | none => rfl
    | some r =>
      have hpr := List.find?_some hfind
      simp only [Bool.and_eq_true, beq_iff_eq] at hpr
      have hcondP : ¬(r.auction_id = aid ∧ r.spec_key = k) := by
        intro hc
        cases hne with
        | inl hne => exact hne (hpr.1.symm.trans hc.1)
        | inr hne => exact hne (hpr.2.symm.trans hc.2)
      simp [hcondP]
  · rename_i hany
    rw [List.find?_append]
    have hnew : ((aid == aid') && (k == k')) = false := by
      cases hne with
      | inl h =>
        have hb : (aid == aid') = false :=
          beq_eq_false_iff_ne.mpr (fun he => h he.symm)
        simp [hb]
      | inr h =>
        have hb : (k == k') = false :=
          beq_eq_false_iff_ne.mpr (fun he => h he.symm)
        simp [hb]
    have hnewn : List.find?
        (fun s : SpecificRow => s.auction_id == aid' && s.spec_key == k')
        [{ auction_id := aid, spec_key := k, spec_value := v }] = none := by
      simp [List.find?, hnew]
    rw [hnewn, Option.or_none]

/-- Merging a specifics mapping leaves every (auction id, key) pair whose
auction differs or whose key is not in the mapping unchanged. -/
theorem apply_specifics_untouched (aid : Nat) :
    ∀ (l : List (String × Option String)) (db : DB) (aid' : Nat) (k' : String),
      (aid' ≠ aid ∨ k' ∉ l.map Prod.fst) →
      lookupSpec (apply_specifics db aid l) aid' k' = lookupSpec db aid' k' := by
  intro l
  induction l with
  | nil => intro db aid' k' _; rfl
  | cons kv rest ih =>
    intro db aid' k' hne
    have h1 : aid' ≠ aid ∨ k' ∉ rest.map Prod.fst := by
      cases hne with
      | inl h => exact Or.inl h
      | inr h => exact Or.inr (fun hm => h (by simp [hm]))
    have h2 : aid' ≠ aid ∨ k' ≠ kv.1 := by
      cases hne with
      | inl h => exact Or.inl h
      | inr h => exact Or.inr (fun he => h (by simp [he]))
    show lookupSpec (apply_specifics (upsertSpecific db aid kv.1 kv.2) aid rest)
        aid' k' = lookupSpec db aid' k'
    rw [ih (upsertSpecific db aid kv.1 kv.2) aid' k' h1,
      lookupSpec_upsert_other db aid kv.1 kv.2 aid' k' h2]

/-- Merging a specifics mapping with pairwise distinct keys stores every
pair of the mapping. -/
theorem apply_specifics_covers (aid : Nat) :
    ∀ (l : List (String × Option String)) (db : DB),
      (l.map Prod.fst).Nodup →
      ∀ k v, (k, v) ∈ l →
        lookupSpec (apply_specifics db aid l) aid k = some v := by
  intro l
  induction l with
  | nil => intro db _ k v hm; cases hm
  | cons kv rest ih =>
    intro db hnd k v hm
    rw [List.map_cons, List.nodup_cons] at hnd
    cases hm with
    | head =>
      show lookupSpec (apply_specifics (upsertSpecific db aid k v) aid rest)
          aid k = some v
      rw [apply_specifics_untouched aid rest _ aid k (Or.inr hnd.1)]
      exact lookupSpec_upsert_same db aid k v
    | tail _ hm' =>
      show lookupSpec (apply_specifics (upsertSpecific db aid kv.1 kv.2)
          aid rest) aid k = some v
      exact ih _ hnd.2 k v hm'

/-- C7: merging item specifics (db.py lines 237-247) is additive.  Every
key/value pair of the observed mapping (whose keys, coming from a Python
dict, are pairwise distinct) ends up stored for the auction, and every
stored pair of another auction or with a key absent from the mapping reads
back unchanged. -/
theorem c7_specifics_additive_merge (db : DB) (aid : Nat)
    (mapping : List (String × Option String))
    (hnd : (mapping.map Prod.fst).Nodup) :
    (∀ k v, (k, v) ∈ mapping →
        lookupSpec (apply_specifics db aid mapping) aid k = some v)
  ∧ (∀ (aid' : Nat) (k' : String), aid' ≠ aid ∨ k' ∉ mapping.map Prod.fst →
        lookupSpec (apply_specifics db aid mapping) aid' k' =
          lookupSpec db aid' k') := by
  constructor
  · exact apply_specifics_covers aid mapping db hnd
  · intro aid' k' hne
    exact apply_specifics_untouched aid mapping db aid' k' hne

/-- C7 witness: merging the mapping B = 2 after the mapping A = 1 on the
same auction leaves both A and B stored. -/
theorem c7_specifics_additive_merge_witness :
    lookupSpec c7_dbAB 1 "B" = some (some "2") ∧
    lookupSpec c7_dbAB 1 "A" = some (some "1") := by
  constructor
  · exact (c7_specifics_additive_merge c7_dbA 1 [("B", some "2")]
      (by decide)).1 "B" (some "2") (by decide)
  · exact ((c7_specifics_additive_merge c7_dbA 1 [("B", some "2")]
      (by decide)).2 1 "A" (Or.inr (by decide))).trans (by rfl)

/-- The finalize SET clause keeps each row's marketplace item id. -/
theorem completedRowUpdate_item_id (item : CompletedItem) (iid : String)
    (a : AuctionRow) :
    (completedRowUpdate item iid a).item_id = a.item_id := by
  unfold completedRowUpdate
  split <;> rfl

/-- The insert path of save_item stores the observed marketplace item
id. -/
theorem newAuctionRow_item_id (item : Item) (sid aid : Nat)
    (iid title url sp : String) (endt : Int) (status : String) :
    (newAuctionRow item sid aid iid title url sp endt status).item_id = iid :=
  rfl

/-- Seller resolution preserves uniqueness of marketplace user ids: the
update branch maps the table in place without touching user ids, and the
insert branch appends a user id the lookup just found absent. -/
theorem sellersUnique_get {db : DB} {sd : SellerData} {db1 : DB} {sid : Nat}
    (hu : sellersUnique db) (h : get_seller_id db sd = .ok (db1, sid)) :
    sellersUnique db1 := by
  obtain ⟨-, -, -, -, uid, -, hbr⟩ := get_seller_id_ok_shape h
  cases hbr with
  | inl hupd =>
    obtain ⟨s, hf, -, hsl⟩ := hupd
    unfold sellersUnique at hu ⊢
    rw [hsl, List.map_map]
    have hcomp : (SellerRow.ebay_user_id ∘ fun r =>
        if r.id = s.id then
          { r with rating := sd.rating, feedback_score := sd.feedback_score }
        else r) = SellerRow.ebay_user_id := by
      funext r
      by_cases hc : r.id = s.id
      · simp [Function.comp, hc]
      · simp [Function.comp, hc]
    rw [hcomp]
    exact hu
  | inr hins =>
    obtain ⟨hf, -, hsl⟩ := hins
    unfold sellersUnique at hu ⊢
    rw [hsl, List.map_append, List.nodup_append]
    refine ⟨hu, List.nodup_singleton _, ?_⟩
    intro x hx hx2
    have hxu : x = uid := by simpa using hx2
    subst hxu
    obtain ⟨r, hr, hru⟩ := List.mem_map.mp hx
    have hnone := List.find?_eq_none.mp hf r hr
    exact hnone (by simp [hru])

/-- A successful save_item preserves uniqueness of marketplace item ids:
the update branch maps the table in place without touching item ids, and
the insert branch appends an item id the lookup just found absent. -/
theorem auctionsUnique_save {db : DB} {item : Item} {db' : DB} {aid : Nat}
    (hu : auctionsUnique db) (h : save_item db item = .ok (db', aid)) :
    auctionsUnique db' := by
  obtain ⟨sd, db1, sid, -, hg, iid, title, url, status, -, -, -, -, -, hbr⟩ :=
    save_item_ok_shape h
  have hauc1 : db1.auctions = db.auctions := (get_seller_id_ok_shape hg).1
  cases hbr with
  | inl hupd =>
    obtain ⟨a, -, -, hauc⟩ := hupd
    unfold auctionsUnique at hu ⊢
    rw [hauc, hauc1, List.map_map]
    have hcomp : (AuctionRow.item_id ∘ fun r =>
        if r.id = a.id then updatedAuctionRow item sid title url status r
        else r) = AuctionRow.item_id := by
      funext r
      by_cases hc : r.id = a.id
      · simp [Function.comp, hc, updatedAuctionRow_item_id]
      · simp [Function.comp, hc]
    rw [hcomp]
    exact hu
  | inr hins =>
    obtain ⟨hf, -, sp, endt, -, -, hauc⟩ := hins
    unfold auctionsUnique at hu ⊢
    rw [hauc, hauc1, List.map_append, List.nodup_append]
    refine ⟨hu, List.nodup_singleton _, ?_⟩
    intro x hx hx2
    have hxu : x = iid := by simpa [newAuctionRow_item_id] using hx2
    subst hxu
    obtain ⟨r, hr, hru⟩ := List.mem_map.mp hx
    rw [hauc1] at hf
    have hnone := List.find?_eq_none.mp hf r hr
    exact hnone (by simp [hru])

/-- One store operation — seller resolution, active upsert or completion —
preserves both business-key uniqueness invariants; a failing operation
leaves the store unchanged. -/
theorem storeUnique_applyOp {db : DB} (hu : storeUnique db) (op : StoreOp) :
    storeUnique (applyOp db op) := by
  obtain ⟨hs, ha⟩ := hu
  cases op with
  | resolveSeller sd =>
    simp only [applyOp]
    cases hg : get_seller_id db sd with
    | error e => exact ⟨hs, ha⟩
    | ok p =>
      obtain ⟨db1, sid⟩ := p
      refine ⟨sellersUnique_get hs hg, ?_⟩
      unfold auctionsUnique
      rw [(get_seller_id_ok_shape hg).1]
      exact ha
  | saveItem it =>
    simp only [applyOp]
    cases hsi : save_item db it with
    | error e => exact ⟨hs, ha⟩
    | ok p =>
      obtain ⟨db', aid⟩ := p
      obtain ⟨sd, db1, sid, -, hg, iid, title, url, status, -, -, -, -,
        hsell, -⟩ := save_item_ok_shape hsi
      refine ⟨?_, auctionsUnique_save ha hsi⟩
      unfold sellersUnique
      rw [hsell]
      exact sellersUnique_get hs hg
  | completeItem it =>
    simp only [applyOp]
    cases hc : update_completed_item db it with
    | error e => exact ⟨hs, ha⟩
    | ok p =>
      obtain ⟨db', res⟩ := p
      obtain ⟨iid, -, hauc, hsell⟩ := update_completed_item_ok_shape hc
      constructor
      · unfold sellersUnique
        rw [hsell]
        exact hs
      · unfold auctionsUnique
        rw [hauc, List.map_map]
        have hcomp : (AuctionRow.item_id ∘ completedRowUpdate it iid) =
            AuctionRow.item_id := by
          funext a
          exact completedRowUpdate_item_id it iid a
        rw [hcomp]
        exact ha

/-- Any sequence of store operations preserves both business-key
uniqueness invariants. -/
theorem storeUnique_applyOps :
    ∀ (ops : List StoreOp) (db : DB), storeUnique db →
      storeUnique (applyOps db ops)
  | [], _, h => h
  | op :: rest, db, h =>
    storeUnique_applyOps rest (applyOp db op) (storeUnique_applyOp h op)

/-- C9: starting from a store satisfying the business-key invariants, no
sequence of seller resolutions, active upserts and completions ever creates
two Seller rows with the same marketplace user id or two Auction rows with
the same marketplace item id (first conjunct); and resolving seller facts
whose user id is already stored creates no row — the table keeps its size —
while the stored row is refreshed to the observed rating and feedback score
(second conjunct). -/
theorem c9_business_key_uniqueness (db : DB) (ops : List StoreOp)
    (h : storeUnique db) :
    storeUnique (applyOps db ops) ∧
    (∀ (d : DB) (sd : SellerData) (uid : String) (d1 : DB) (sid : Nat),
       sd.ebay_user_id = some uid →
       (∃ r ∈ d.sellers, r.ebay_user_id = uid) →
       get_seller_id d sd = .ok (d1, sid) →
       d1.sellers.length = d.sellers.length ∧
       ∃ r ∈ d1.sellers, r.ebay_user_id = uid ∧ r.rating = sd.rating ∧
         r.feedback_score = sd.feedback_score) := by
  constructor
  · exact storeUnique_applyOps ops db h
  · intro d sd uid d1 sid hu hex hg
    obtain ⟨-, -, -, -, uid', hu', hbr⟩ := get_seller_id_ok_shape hg
    rw [hu] at hu'
    injection hu' with huu
    subst huu
    cases hbr with
    | inr hins =>
      obtain ⟨hf, -, -⟩ := hins
      obtain ⟨r, hr, hru⟩ := hex
      have hbeq : (r.ebay_user_id == uid) = true := by simp [hru]
      exact absurd hbeq (List.find?_eq_none.mp hf r hr)
    | inl hupd =>
      obtain ⟨s, hf, -, hsl⟩ := hupd
      constructor
      · rw [hsl, List.length_map]
      · refine ⟨{ s with rating := sd.rating, feedback_score := sd.feedback_score }, ?_, ?_, rfl, rfl⟩
        · rw [hsl]
          have hsmem : s ∈ d.sellers := List.mem_of_find?_eq_some hf
          have hmap := List.mem_map_of_mem (fun r =>
            if r.id = s.id then
              { r with rating := sd.rating,
                       feedback_score := sd.feedback_score }
            else r) hsmem
          simpa using hmap
        · have hbeq := List.find?_some hf
          simpa using hbeq

/-- C9 witness: the concrete repeated-operations sequence keeps both
invariants, and the repeated seller resolution keeps one row and refreshes
it. -/
theorem c9_business_key_uniqueness_witness :
    storeUnique (applyOps DB.empty c9_ops) ∧
    (c9_db1.sellers.length = c9_db0.sellers.length ∧
     ∃ r ∈ c9_db1.sellers, r.ebay_user_id = "s1" ∧ r.rating = some 5 ∧
       r.feedback_score = some 10) := by
  constructor
  · exact (c9_business_key_uniqueness DB.empty c9_ops (by decide)).1
  · exact (c9_business_key_uniqueness DB.empty [] (by decide)).2 c9_db0 c9_sd
      "s1" c9_db1 1 rfl (by decide) rfl
